import Mathlib

/-!
Verification development for the hermes-chat libp2p node (files `chat.rs`,
`dcutr.rs`, `main.rs`, `new.rs`, `new2.rs`).

The development shallowly embeds the parts of the program the claims are
about:

* the gossipsub content-addressing function `message_id_fn`
  (`chat.rs:43-47`, `new2.rs:87-91`), including a faithful model of
  `std::collections::hash_map::DefaultHasher` (SipHash-1-3 with zero keys,
  on a 64-bit little-endian platform, where `Hash for [u8]` first writes
  the slice length as a `usize` and then the raw bytes);
* the address-learning exchange loops (`dcutr.rs:111-139`,
  `new2.rs:151-176`);
* the mode-dependent hole-punch setup (`dcutr.rs:141-156`,
  `new2.rs:179-202`);
* the main event loop of `new2.rs:209-258` (publish errors, connection
  events, the reservation assertion, explicit-peer bookkeeping);
* the deterministic identity generator `generate_ed25519`
  (`dcutr.rs:198-203`, `new2.rs:262-267`).

Bytes are natural numbers below 256, 64-bit words are natural numbers with
explicit reduction modulo `2 ^ 64`, peer ids are natural numbers, and
multiaddresses are lists of protocol segments.
-/

/-! ### 64-bit words and SipHash-1-3 (the std `DefaultHasher`) -/

/-- Reduction of a natural number to a 64-bit machine word. -/
def wrap64 (x : Nat) : Nat := x % 2 ^ 64

/-- Left rotation of a 64-bit word by `n` bits.  For `x < 2 ^ 64` the two
summands occupy disjoint bit ranges, so the sum is the usual bitwise-or
rotation. -/
def rotl64 (x n : Nat) : Nat := wrap64 (x * 2 ^ n) + x / 2 ^ (64 - n)

/-- Internal state of the SipHash computation: four 64-bit words. -/
structure SipState where
  v0 : Nat
  v1 : Nat
  v2 : Nat
  v3 : Nat

/-- One SipRound of the SipHash family. -/
def sipRound (s : SipState) : SipState :=
  let v0 := wrap64 (s.v0 + s.v1)
  let v1 := rotl64 s.v1 13
  let v1 := v1 ^^^ v0
  let v0 := rotl64 v0 32
  let v2 := wrap64 (s.v2 + s.v3)
  let v3 := rotl64 s.v3 16
  let v3 := v3 ^^^ v2
  let v0 := wrap64 (v0 + v3)
  let v3 := rotl64 v3 21
  let v3 := v3 ^^^ v0
  let v2 := wrap64 (v2 + v1)
  let v1 := rotl64 v1 17
  let v1 := v1 ^^^ v2
  let v2 := rotl64 v2 32
  ⟨v0, v1, v2, v3⟩

/-- Compression of one 8-byte message word `m` with `c = 1` round
(SipHash-1-3). -/
def sipCompress (s : SipState) (m : Nat) : SipState :=
  let t := sipRound ⟨s.v0, s.v1, s.v2, s.v3 ^^^ m⟩
  ⟨t.v0 ^^^ m, t.v1, t.v2, t.v3⟩

/-- Initial SipHash state for the zero key used by
`DefaultHasher::new()`: the four standard initialization constants xored
with `k0 = k1 = 0`. -/
def sipInit : SipState :=
  ⟨0x736f6d6570736575, 0x646f72616e646f6d, 0x6c7967656e657261, 0x7465646279746573⟩

/-- Little-endian assembly of eight bytes into one 64-bit word. -/
def word8 (a b c d e f g h : Nat) : Nat :=
  a + 2 ^ 8 * b + 2 ^ 16 * c + 2 ^ 24 * d + 2 ^ 32 * e + 2 ^ 40 * f +
    2 ^ 48 * g + 2 ^ 56 * h

/-- Splits a byte stream into its full 8-byte little-endian words and the
remaining tail of fewer than eight bytes. -/
def splitBlocks : List Nat → List Nat × List Nat
  | a :: b :: c :: d :: e :: f :: g :: h :: rest =>
    let p := splitBlocks rest
    (word8 a b c d e f g h :: p.1, p.2)
  | t => ([], t)

/-- Little-endian assembly of the final partial block (fewer than eight
bytes). -/
def tailWord : List Nat → Nat
  | [] => 0
  | b :: t => b + 2 ^ 8 * tailWord t

/-- SipHash-1-3 with the zero key over a byte stream: one compression
round per 8-byte word, a final block carrying the stream length in the
top byte, and three finalization rounds.  This is the hash computed by
`DefaultHasher` for the byte stream written into it. -/
def sipHash13 (stream : List Nat) : Nat :=
  let p := splitBlocks stream
  let s := p.1.foldl sipCompress sipInit
  let last := tailWord p.2 + 2 ^ 56 * (stream.length % 256)
  let s := sipCompress s last
  let s : SipState := ⟨s.v0, s.v1, s.v2 ^^^ 0xff, s.v3⟩
  let s := sipRound (sipRound (sipRound s))
  wrap64 (s.v0 ^^^ s.v1 ^^^ s.v2 ^^^ s.v3)

/-- The eight little-endian bytes of a 64-bit length value, as written by
`Hasher::write_usize` on a 64-bit little-endian platform. -/
def le64Bytes (n : Nat) : List Nat :=
  [n % 2 ^ 8, n / 2 ^ 8 % 2 ^ 8, n / 2 ^ 16 % 2 ^ 8, n / 2 ^ 24 % 2 ^ 8,
    n / 2 ^ 32 % 2 ^ 8, n / 2 ^ 40 % 2 ^ 8, n / 2 ^ 48 % 2 ^ 8,
    n / 2 ^ 56 % 2 ^ 8]

/-- Hashing a byte slice with `DefaultHasher`: `Hash for [u8]` writes the
slice length (as a `usize`) followed by the raw bytes, and `finish`
returns the SipHash-1-3 value of that stream. -/
def defaultHashBytes (data : List Nat) : Nat :=
  sipHash13 (le64Bytes data.length ++ data)

/-! ### Gossipsub messages and `message_id_fn` -/

/-- The gossipsub message record: originating peer, payload bytes,
sequence number and topic, mirroring `gossipsub::Message`. -/
structure Message where
  source : Option Nat
  data : List Nat
  sequence_number : Option Nat
  topic : String

/-- The content-addressing function installed by `chat.rs:43-47` and
`new2.rs:87-91`: hash `message.data` with a fresh `DefaultHasher` and use
the decimal string of the 64-bit result as the message id. -/
def message_id_fn (message : Message) : String :=
  Nat.repr (defaultHashBytes message.data)

/-! ### Injectivity of the decimal representation `Nat.repr` -/

/-- Value of a decimal digit character. -/
def digitVal (c : Char) : Nat := c.toNat - 48

/-- Decoding of a most-significant-first list of decimal digit
characters. -/
def decodeDigits (l : List Char) : Nat :=
  l.foldl (fun a c => 10 * a + digitVal c) 0

lemma toDigitsCore_append (fuel : Nat) :
    ∀ n ds, n < fuel →
      Nat.toDigitsCore 10 fuel n ds = Nat.toDigitsCore 10 fuel n [] ++ ds := by
  induction fuel with
  | zero => intro n ds h; omega
  | succ fuel ih =>
    intro n ds _
    simp only [Nat.toDigitsCore]
    by_cases h10 : n / 10 = 0
    · simp [h10]
    · have hlt : n / 10 < fuel := by
        have h1 : n / 10 < n := Nat.div_lt_self (by omega) (by omega)
        omega
      simp only [h10, if_false]
      rw [ih (n / 10) (Nat.digitChar (n % 10) :: ds) hlt,
        ih (n / 10) [Nat.digitChar (n % 10)] hlt, List.append_assoc]
      rfl

lemma toDigitsCore_fuel (fuel1 : Nat) :
    ∀ fuel2 n ds, n < fuel1 → n < fuel2 →
      Nat.toDigitsCore 10 fuel1 n ds = Nat.toDigitsCore 10 fuel2 n ds := by
  induction fuel1 with
  | zero => intro fuel2 n ds h _; omega
  | succ fuel1 ih =>
    intro fuel2 n ds _ h2
    cases fuel2 with
    | zero => omega
    | succ fuel2 =>
      simp only [Nat.toDigitsCore]
      by_cases h10 : n / 10 = 0
      · simp [h10]
      · have h1 : n / 10 < n := Nat.div_lt_self (by omega) (by omega)
        simp only [h10, if_false]
        exact ih fuel2 (n / 10) _ (by omega) (by omega)

lemma toDigits_small {n : Nat} (h : n < 10) :
    Nat.toDigits 10 n = [Nat.digitChar n] := by
  have h10 : n / 10 = 0 := Nat.div_eq_of_lt h
  have hm : n % 10 = n := Nat.mod_eq_of_lt h
  simp [Nat.toDigits, Nat.toDigitsCore, h10, hm]

lemma toDigitsCore_succ (fuel n : Nat) (ds : List Char) :
    Nat.toDigitsCore 10 (fuel + 1) n ds =
      if n / 10 = 0 then Nat.digitChar (n % 10) :: ds
      else Nat.toDigitsCore 10 fuel (n / 10) (Nat.digitChar (n % 10) :: ds) := rfl

lemma toDigits_step {n : Nat} (h : 10 ≤ n) :
    Nat.toDigits 10 n = Nat.toDigits 10 (n / 10) ++ [Nat.digitChar (n % 10)] := by
  have h10 : ¬ n / 10 = 0 := by
    intro h0
    have := Nat.div_eq_of_lt (by omega : n < 10)
    omega
  have h1 : n / 10 < n := Nat.div_lt_self (by omega) (by omega)
  simp only [Nat.toDigits]
  rw [toDigitsCore_succ n n [], if_neg h10,
    toDigitsCore_append n (n / 10) [Nat.digitChar (n % 10)] h1,
    toDigitsCore_fuel n (n / 10 + 1) (n / 10) [] h1 (Nat.lt_succ_self _)]

lemma digitVal_digitChar {d : Nat} (h : d < 10) :
    digitVal (Nat.digitChar d) = d := by
  have : ∀ m, m < 10 → digitVal (Nat.digitChar m) = m := by decide
  exact this d h

lemma decodeDigits_append_singleton (l : List Char) (c : Char) :
    decodeDigits (l ++ [c]) = 10 * decodeDigits l + digitVal c := by
  simp [decodeDigits, List.foldl_append]

lemma decodeDigits_toDigits (n : Nat) :
    decodeDigits (Nat.toDigits 10 n) = n := by
  induction n using Nat.strong_induction_on with
  | _ n ih =>
    by_cases h : n < 10
    · rw [toDigits_small h]
      simp [decodeDigits, digitVal_digitChar h]
    · have h10 : 10 ≤ n := by omega
      rw [toDigits_step h10, decodeDigits_append_singleton,
        ih (n / 10) (Nat.div_lt_self (by omega) (by omega)),
        digitVal_digitChar (Nat.mod_lt n (by omega))]
      omega

lemma natRepr_injective {m n : Nat} (h : Nat.repr m = Nat.repr n) : m = n := by
  have hdig : Nat.toDigits 10 m = Nat.toDigits 10 n := by
    have := congrArg String.data h
    simpa [Nat.repr, List.asString] using this
  calc m = decodeDigits (Nat.toDigits 10 m) := (decodeDigits_toDigits m).symm
    _ = decodeDigits (Nat.toDigits 10 n) := by rw [hdig]
    _ = n := decodeDigits_toDigits n

lemma defaultHashBytes_lt (data : List Nat) : defaultHashBytes data < 2 ^ 64 := by
  have : ∀ x : Nat, wrap64 x < 2 ^ 64 := fun x => Nat.mod_lt x (by positivity)
  exact this _

lemma replicate_zero_ne {a b : Nat} (h : a ≠ b) :
    List.replicate a (0 : Nat) ≠ List.replicate b (0 : Nat) := by
  intro heq
  exact h (by simpa using congrArg List.length heq)

/-! ### Modes, multiaddresses and the hole-punch setup -/

/-- The node's role, parsed from the command line (`dcutr.rs:29-33`,
`new2.rs:39-43`). -/
inductive Mode
  | dial
  | listen
deriving DecidableEq

/-- One segment of a multiaddress, as used by the program: transport
segments, the relay-circuit marker and a target peer. -/
inductive Protocol
  | ip4 (addr : Nat)
  | tcp (port : Nat)
  | udp (port : Nat)
  | quicV1
  | p2p (peer : Nat)
  | p2pCircuit
deriving DecidableEq

/-- A multiaddress is an ordered sequence of protocol segments; equality
is by segment sequence. -/
abbrev Multiaddr := List Protocol

/-- `Multiaddr::with`: extend an address with one further segment. -/
def Multiaddr.withProto (a : Multiaddr) (p : Protocol) : Multiaddr := a ++ [p]

/-- The action the node takes right after the address-learning exchange
(`dcutr.rs:141-156`, `new2.rs:179-202`): dial the target's relay-circuit
address, or listen on the relay-circuit address. -/
inductive SetupStep
  | dialCircuit (address : Multiaddr)
  | listenCircuit (address : Multiaddr)
deriving DecidableEq

/-- The `match opts.mode` block of `new2.rs:179-202` (identical logic in
`dcutr.rs:141-156`): in dial mode, `opts.remote_peer_id` is unwrapped
(`expect` / `unwrap` — a fatal panic when it is `None`, modelled as
`none`) and the node dials `relay_address / P2pCircuit / P2p(remote)`;
in listen mode the node listens on `relay_address / P2pCircuit`. -/
def modeSetup (mode : Mode) (relay_address : Multiaddr)
    (remote_peer_id : Option Nat) : Option SetupStep :=
  match mode with
  | .dial =>
    match remote_peer_id with
    | none => none
    | some remote =>
      some (.dialCircuit
        ((relay_address.withProto .p2pCircuit).withProto (.p2p remote)))
  | .listen => some (.listenCircuit (relay_address.withProto .p2pCircuit))

/-- Whether a setup step asks the relay for a reservation: listening on a
relay-circuit address requests a reservation, dialing through the
circuit does not. -/
def requestsReservation : SetupStep → Bool
  | .listenCircuit _ => true
  | .dialCircuit _ => false

/-! ### The address-learning exchange loops -/

/-- The swarm events distinguished by the two address-learning wait loops
(`new2.rs:151-176` matches identify sent/received, connection
established and a wildcard; `dcutr.rs:111-139` matches new-listen-addr,
dialing, connection established, ping and identify events and panics on
everything else). -/
inductive LoopEvent
  | newListenAddr
  | dialing
  | connectionEstablished
  | connectionClosed
  | outgoingConnectionError
  | incomingConnection
  | pingEvent
  | identifySent
  | identifyReceived
  | relayClientEvent
  | dcutrEvent
  | gossipsubEvent
deriving DecidableEq

/-- The two flags of the address-learning exchange loops. -/
structure LearnState where
  learned_observed_addr : Bool
  told_relay_observed_addr : Bool
deriving DecidableEq

/-- One iteration of the `new2.rs:151-176` exchange loop body: identify
`Sent` records that the relay was told its observed address, identify
`Received` records that the node learned its own observed address,
`ConnectionEstablished` and every other event leave the state unchanged
(`_ => {}`). -/
def learnStepNew2 (s : LearnState) (e : LoopEvent) : LearnState :=
  match e with
  | .identifySent => { s with told_relay_observed_addr := true }
  | .identifyReceived => { s with learned_observed_addr := true }
  | .connectionEstablished => s
  | _ => s

/-- One iteration of the `dcutr.rs:111-139` exchange loop body: the six
listed events are tolerated (identify `Sent` / `Received` set the two
flags), and any other event hits `event => panic!("...")`, modelled as
`none`. -/
def learnStepDcutr (s : LearnState) (e : LoopEvent) : Option LearnState :=
  match e with
  | .newListenAddr => some s
  | .dialing => some s
  | .connectionEstablished => some s
  | .pingEvent => some s
  | .identifySent => some { s with told_relay_observed_addr := true }
  | .identifyReceived => some { s with learned_observed_addr := true }
  | _ => none

/-- Outcome of running an exchange loop on a finite event trace: the loop
broke out of its `loop` (both flags set), is still waiting for further
events, or the process panicked. -/
inductive LearnOutcome
  | exited (s : LearnState)
  | waiting (s : LearnState)
  | panicked
deriving DecidableEq

/-- Whether a loop outcome is the panic outcome. -/
def LearnOutcome.isPanicked : LearnOutcome → Bool
  | .panicked => true
  | _ => false

/-- The `new2.rs:151-176` exchange loop on a finite event trace: after
each event the loop breaks exactly when both flags are set. -/
def runLearnNew2 (s : LearnState) : List LoopEvent → LearnOutcome
  | [] => .waiting s
  | e :: rest =>
    let s' := learnStepNew2 s e
    if s'.learned_observed_addr && s'.told_relay_observed_addr then .exited s'
    else runLearnNew2 s' rest

/-- The `dcutr.rs:111-139` exchange loop on a finite event trace: an
unexpected event panics, otherwise the loop breaks exactly when both
flags are set. -/
def runLearnDcutr (s : LearnState) : List LoopEvent → LearnOutcome
  | [] => .waiting s
  | e :: rest =>
    match learnStepDcutr s e with
    | none => .panicked
    | some s' =>
      if s'.learned_observed_addr && s'.told_relay_observed_addr then .exited s'
      else runLearnDcutr s' rest

/-- The events whose arms the `dcutr.rs:111-139` loop lists explicitly;
every other event reaches the `event => panic!` arm. -/
def dcutrLearnExpected : LoopEvent → Bool
  | .newListenAddr => true
  | .dialing => true
  | .connectionEstablished => true
  | .pingEvent => true
  | .identifySent => true
  | .identifyReceived => true
  | _ => false

/-! ### The main event loop of `new2.rs` -/

/-- The inputs the main `select!` loop of `new2.rs:209-258` reacts to.
A stdin line carries the outcome of the external gossipsub `publish`
call (`publish_ok = false` models a `PublishError`); connection events
carry the peer id and the connection id of the affected connection (the
source pattern `ConnectionEstablished { peer_id, .. }` ignores the
connection id). -/
inductive MainEvent
  | stdinLine (publish_ok : Bool)
  | newListenAddr
  | connectionEstablished (peer_id : Nat) (conn : Nat)
  | connectionClosed (peer_id : Nat) (conn : Nat)
  | outgoingConnectionError (peer_id : Option Nat)
  | reservationReqAccepted
  | gossipsubMessage (propagation_source : Nat) (data : List Nat)
  | otherBehaviour
  | otherSwarm
deriving DecidableEq

/-- What the main loop prints or logs in reaction to one input. -/
inductive Output
  | publishError
  | listeningOn
  | establishedConnection (peer_id : Nat)
  | closedConnection (peer_id : Nat)
  | outgoingConnectionFailed (peer_id : Option Nat)
  | reservationAccepted
  | gotMessage (peer_id : Nat) (data : List Nat)
  | loggedEvent
deriving DecidableEq

/-- The mutable state the main loop maintains: the gossipsub
explicit-peer set updated by `add_explicit_peer` / `remove_explicit_peer`
(`new2.rs:222-231`). -/
structure MainState where
  explicitPeers : Finset Nat
deriving DecidableEq

/-- One iteration of the main `select!` loop of `new2.rs:209-258`.
`none` models a panic of the process: the only panic in the loop is the
`assert!(opts.mode == Mode::Listen, ...)` on a reservation acceptance
(`new2.rs:238`).  A failed publish and an outgoing connection error are
printed and the loop continues. -/
def mainStep (mode : Mode) (s : MainState) (e : MainEvent) :
    Option (MainState × List Output) :=
  match e with
  | .stdinLine publish_ok => some (s, if publish_ok then [] else [.publishError])
  | .newListenAddr => some (s, [.listeningOn])
  | .connectionEstablished p _ =>
    some (⟨insert p s.explicitPeers⟩, [.establishedConnection p])
  | .connectionClosed p _ =>
    some (⟨s.explicitPeers.erase p⟩, [.closedConnection p])
  | .outgoingConnectionError p => some (s, [.outgoingConnectionFailed p])
  | .reservationReqAccepted =>
    if mode = .listen then some (s, [.reservationAccepted]) else none
  | .gossipsubMessage p d => some (s, [.gotMessage p d])
  | .otherBehaviour => some (s, [.loggedEvent])
  | .otherSwarm => some (s, [])

/-- The main loop run over a finite event trace, accumulating outputs;
a panic in any iteration aborts the node (`none`). -/
def runMain (mode : Mode) (s : MainState) : List MainEvent → Option (MainState × List Output)
  | [] => some (s, [])
  | e :: rest =>
    match mainStep mode s e with
    | none => none
    | some (s', out) =>
      match runMain mode s' rest with
      | none => none
      | some (s'', outs) => some (s'', out ++ outs)

/-- The node's life after the address-learning exchange: the
mode-dependent setup step runs first (`new2.rs:179-202`); only when it
does not panic does the node enter the main loop.  A missing remote peer
id in dial mode therefore aborts before any hole-punch step or main-loop
activity. -/
def nodeAfterExchange (mode : Mode) (relay_address : Multiaddr)
    (remote_peer_id : Option Nat) (trace : List MainEvent) :
    Option (SetupStep × Option (MainState × List Output)) :=
  (modeSetup mode relay_address remote_peer_id).map
    fun step => (step, runMain mode ⟨∅⟩ trace)

/-! ### Connection events and the explicit-peer invariant -/

/-- A connection-level event seen by the main loop, carrying the peer id
and the connection id. -/
inductive ConnEvent
  | established (peer_id : Nat) (conn : Nat)
  | closed (peer_id : Nat) (conn : Nat)
deriving DecidableEq

/-- The gossipsub explicit-peer set after a sequence of connection
events, as maintained by `new2.rs:222-231`: `add_explicit_peer` on every
`ConnectionEstablished`, `remove_explicit_peer` on every
`ConnectionClosed`; the connection id is ignored. -/
def explicitPeersAfter : Finset Nat → List ConnEvent → Finset Nat
  | E, [] => E
  | E, .established p _ :: rest => explicitPeersAfter (insert p E) rest
  | E, .closed p _ :: rest => explicitPeersAfter (E.erase p) rest

/-- The set of open connections after a sequence of connection events:
each established connection is added, each closed connection removed. -/
def openConnections : Finset (Nat × Nat) → List ConnEvent → Finset (Nat × Nat)
  | S, [] => S
  | S, .established p c :: rest => openConnections (insert (p, c) S) rest
  | S, .closed p c :: rest => openConnections (S.erase (p, c)) rest

/-- Stated from the claim's words, for comparison with the code-side
`explicitPeersAfter`: the set of currently connected peers after a
sequence of connection events — the peers with at least one open
connection. -/
def connectedPeersSpec (trace : List ConnEvent) : Finset Nat :=
  (openConnections ∅ trace).image Prod.fst

/-- Well-formedness of a connection trace under which each peer holds at
most one connection at a time: an establishment concerns a peer with no
open connection, and a close concerns an open connection. -/
def singleConnPerPeer : Finset (Nat × Nat) → List ConnEvent → Bool
  | _, [] => true
  | S, .established p c :: rest =>
    if p ∈ S.image Prod.fst then false else singleConnPerPeer (insert (p, c) S) rest
  | S, .closed p c :: rest =>
    if (p, c) ∈ S then singleConnPerPeer (S.erase (p, c)) rest else false

/-! ### Deterministic identity generation -/

/-- An Ed25519 keypair, represented by the 32 bytes of secret key
material it is derived from (the derivation of the public half is a
deterministic, injective function of these bytes and is not needed by
the claims). -/
structure Keypair where
  secret : List Nat
deriving DecidableEq

/-- `identity::Keypair::ed25519_from_bytes`: succeeds exactly on inputs
of length 32, and errors on any other length. -/
def ed25519_from_bytes (bytes : List Nat) : Except String Keypair :=
  if bytes.length = 32 then .ok ⟨bytes⟩
  else .error "expected 32 bytes of ed25519 key material"

/-- `generate_ed25519` (`dcutr.rs:198-203`, `new2.rs:262-267`): build a
32-byte zero array, put the seed byte at index 0, and decode it as an
Ed25519 secret key; the `expect("only errors on wrong length")` branch
corresponds to an `.error` result. -/
def generate_ed25519 (secret_key_seed : Fin 256) : Except String Keypair :=
  ed25519_from_bytes ((List.replicate 32 0).set 0 secret_key_seed.val)

/-! ### Theorems -/

/-- C1: the message identifier is a deterministic function of the payload:
messages with equal payload bytes get equal identifiers from
`message_id_fn`, and recomputing the identifier of the same message
yields the same result. -/
theorem c1_message_id_deterministic :
    (∀ m1 m2 : Message, m1.data = m2.data → message_id_fn m1 = message_id_fn m2) ∧
      ∀ m : Message, message_id_fn m = message_id_fn m :=
  ⟨fun _ _ h => by unfold message_id_fn; rw [h], fun _ => rfl⟩

/-- Witness for C1: two messages with the same payload but different
senders and sequence numbers receive the same identifier. -/
theorem c1_witness :
    message_id_fn ⟨some 1, [104, 105], some 0, "room1"⟩ =
      message_id_fn ⟨some 2, [104, 105], none, "room1"⟩ :=
  c1_message_id_deterministic.1 _ _ rfl

/-- C2 counterexample: it is not the case that any three pairwise-distinct
payloads get pairwise-distinct identifiers: `message_id_fn` is the
decimal string of a 64-bit hash, and there are more payloads than 64-bit
values, so two distinct payloads share an identifier. -/
theorem c2_counterexample :
    (∀ m1 m2 m3 : Message,
        m1.data ≠ m2.data → m1.data ≠ m3.data → m2.data ≠ m3.data →
        message_id_fn m1 ≠ message_id_fn m2 ∧
          message_id_fn m1 ≠ message_id_fn m3 ∧
          message_id_fn m2 ≠ message_id_fn m3) = False := by
  apply eq_false
  intro h
  obtain ⟨i, j, hij, heq⟩ :=
    Fintype.exists_ne_map_eq_of_card_lt
      (fun i : Fin (2 ^ 64 + 1) =>
        (⟨defaultHashBytes (List.replicate i.val 0), defaultHashBytes_lt _⟩ :
          Fin (2 ^ 64)))
      (by simp only [Fintype.card_fin]; omega)
  have hvals : i.val ≠ j.val := fun hv => hij (Fin.ext hv)
  have hhash :
      defaultHashBytes (List.replicate i.val 0) =
        defaultHashBytes (List.replicate j.val 0) := by
    simpa [Fin.mk.injEq] using heq
  have hi : i.val < 2 ^ 64 + 5 := by omega
  have hj : j.val < 2 ^ 64 + 5 := by omega
  obtain ⟨h12, -, -⟩ :=
    h ⟨none, List.replicate i.val 0, none, "room1"⟩
      ⟨none, List.replicate j.val 0, none, "room1"⟩
      ⟨none, List.replicate (2 ^ 64 + 5) 0, none, "room1"⟩
      (replicate_zero_ne hvals)
      (replicate_zero_ne (by omega))
      (replicate_zero_ne (by omega))
  exact h12 (by unfold message_id_fn; rw [hhash])

/-- C2 amended: the identifiers of three published messages are pairwise
distinct whenever the 64-bit payload hashes are pairwise distinct (which
pairwise-distinct payloads alone do not guarantee). -/
theorem c2_distinct_hashes_distinct_ids (m1 m2 m3 : Message)
    (h12 : defaultHashBytes m1.data ≠ defaultHashBytes m2.data)
    (h13 : defaultHashBytes m1.data ≠ defaultHashBytes m3.data)
    (h23 : defaultHashBytes m2.data ≠ defaultHashBytes m3.data) :
    message_id_fn m1 ≠ message_id_fn m2 ∧
      message_id_fn m1 ≠ message_id_fn m3 ∧
      message_id_fn m2 ≠ message_id_fn m3 :=
  ⟨fun h => h12 (natRepr_injective h),
    fun h => h13 (natRepr_injective h),
    fun h => h23 (natRepr_injective h)⟩

/-- Witness for the amended C2: the three payloads "1", "2", "3" have
pairwise-distinct 64-bit hashes, hence pairwise-distinct identifiers. -/
theorem c2_witness :
    message_id_fn ⟨some 1, [49], none, "room1"⟩ ≠
        message_id_fn ⟨some 1, [50], none, "room1"⟩ ∧
      message_id_fn ⟨some 1, [49], none, "room1"⟩ ≠
          message_id_fn ⟨some 1, [51], none, "room1"⟩ ∧
        message_id_fn ⟨some 1, [50], none, "room1"⟩ ≠
          message_id_fn ⟨some 1, [51], none, "room1"⟩ :=
  c2_distinct_hashes_distinct_ids _ _ _ (by decide) (by decide) (by decide)

/-- C3 counterexample: in the `dcutr.rs:111-139` address-learning wait
loop, an unexpected event (here a DCUtR behaviour event) does crash the
node: the wildcard arm is `event => panic!("...")`. -/
theorem c3_counterexample :
    runLearnDcutr ⟨false, false⟩ [LoopEvent.dcutrEvent] = LearnOutcome.panicked := rfl

/-- C3 amended: in the `new2.rs:151-176` exchange loop every event other
than the identify and connection-established arms is ignored and the
loop continues, never panicking; in the `dcutr.rs:111-139` exchange loop
exactly the events outside its six listed arms panic. -/
theorem c3_unexpected_events :
    (∀ (s : LearnState) (evts : List LoopEvent),
        (runLearnNew2 s evts).isPanicked = false) ∧
      ∀ (s : LearnState) (e : LoopEvent),
        (learnStepDcutr s e).isNone = !dcutrLearnExpected e := by
  constructor
  · intro s evts
    induction evts generalizing s with
    | nil => rfl
    | cons e rest ih =>
      simp only [runLearnNew2]
      split
      · rfl
      · exact ih _
  · intro s e
    cases e <;> rfl

/-- C4: both address-learning exchange loops leave their `loop` only when
both the told-relay flag and the learned-address flag are set: an exit
with only one flag set is impossible. -/
theorem c4_exchange_exits_with_both_flags :
    (∀ (s : LearnState) (evts : List LoopEvent) (s' : LearnState),
        runLearnNew2 s evts = .exited s' →
        s'.learned_observed_addr = true ∧ s'.told_relay_observed_addr = true) ∧
      ∀ (s : LearnState) (evts : List LoopEvent) (s' : LearnState),
        runLearnDcutr s evts = .exited s' →
        s'.learned_observed_addr = true ∧ s'.told_relay_observed_addr = true := by
  constructor
  · intro s evts
    induction evts generalizing s with
    | nil => intro s' h; simp [runLearnNew2] at h
    | cons e rest ih =>
      intro s' h
      simp only [runLearnNew2] at h
      split at h
      · rename_i hb
        cases h
        simpa using hb
      · exact ih _ s' h
  · intro s evts
    induction evts generalizing s with
    | nil => intro s' h; simp [runLearnDcutr] at h
    | cons e rest ih =>
      intro s' h
      cases hstep : learnStepDcutr s e with
      | none => simp [runLearnDcutr, hstep] at h
      | some s1 =>
        simp only [runLearnDcutr, hstep] at h
        split at h
        · rename_i hb
          cases h
          simpa using hb
        · exact ih _ s' h

/-- Witness for C4: on the trace identify-sent then identify-received the
`new2.rs` loop exits in the state with both flags set, and the exited
state indeed has both flags set. -/
theorem c4_witness :
    (⟨true, true⟩ : LearnState).learned_observed_addr = true ∧
      (⟨true, true⟩ : LearnState).told_relay_observed_addr = true :=
  c4_exchange_exits_with_both_flags.1 ⟨false, false⟩
    [LoopEvent.identifySent, LoopEvent.identifyReceived] ⟨true, true⟩ rfl

/-- C5 counterexample: in dial mode the node does not obtain a relay
reservation after the exchange: the setup step is a circuit dial, not a
reservation-requesting circuit listen, and the main loop's assertion
panics if a reservation acceptance arrives in dial mode. -/
theorem c5_counterexample :
    Option.map requestsReservation
        (modeSetup Mode.dial [Protocol.ip4 0, Protocol.tcp 4001] (some 9)) =
        some false ∧
      mainStep Mode.dial ⟨∅⟩ MainEvent.reservationReqAccepted = none := by
  constructor <;> rfl

/-- C5 amended: only in listen mode does the node request a relay
reservation after the exchange — the listening node listens on the
relay-circuit address, while a dialing node dials the target's circuit
address and requests no reservation, and the main loop asserts that
reservation acceptances happen only in listen mode. -/
theorem c5_reservation_only_in_listen_mode :
    (∀ (relay : Multiaddr) (remote : Option Nat),
        Option.map requestsReservation (modeSetup Mode.listen relay remote) =
          some true) ∧
      (∀ (relay : Multiaddr) (r : Nat),
        Option.map requestsReservation (modeSetup Mode.dial relay (some r)) =
          some false) ∧
      ∀ s : MainState, mainStep Mode.dial s MainEvent.reservationReqAccepted = none :=
  ⟨fun _ _ => rfl, fun _ _ => rfl, fun _ => rfl⟩

/-- C6: the address dialed in dial mode is exactly the relay address
extended with the circuit marker and the target peer id, and the address
listened on in listen mode is exactly the relay address extended with
the circuit marker. -/
theorem c6_circuit_addresses (relay : Multiaddr) (remote : Nat) (r : Option Nat) :
    modeSetup Mode.dial relay (some remote) =
        some (.dialCircuit (relay ++ [Protocol.p2pCircuit, Protocol.p2p remote])) ∧
      modeSetup Mode.listen relay r =
        some (.listenCircuit (relay ++ [Protocol.p2pCircuit])) := by
  constructor
  · simp [modeSetup, Multiaddr.withProto]
  · rfl

/-- C7: with dial mode and no remote peer id the node fails fatally in the
setup step — it produces no hole-punch step and never reaches the main
loop — while a supplied peer id or listen mode always proceeds. -/
theorem c7_dial_requires_remote_peer_id (relay : Multiaddr) (trace : List MainEvent) :
    nodeAfterExchange Mode.dial relay none trace = none ∧
      (∀ r : Nat, (nodeAfterExchange Mode.dial relay (some r) trace).isSome = true) ∧
      ∀ r : Option Nat, (nodeAfterExchange Mode.listen relay r trace).isSome = true :=
  ⟨rfl, fun _ => rfl, fun _ => rfl⟩

/-- C8: once the main loop runs, an outgoing connection error and a failed
publish are reported and the loop continues: the step neither panics nor
stops, and the rest of the trace is processed unchanged. -/
theorem c8_per_peer_failures_nonfatal (mode : Mode) (s : MainState)
    (p : Option Nat) (rest : List MainEvent) :
    mainStep mode s (.outgoingConnectionError p) =
        some (s, [.outgoingConnectionFailed p]) ∧
      mainStep mode s (.stdinLine false) = some (s, [.publishError]) ∧
      runMain mode s (.outgoingConnectionError p :: rest) =
        Option.map (fun r => (r.1, .outgoingConnectionFailed p :: r.2))
          (runMain mode s rest) ∧
      runMain mode s (.stdinLine false :: rest) =
        Option.map (fun r => (r.1, .publishError :: r.2)) (runMain mode s rest) := by
  refine ⟨rfl, rfl, ?_, ?_⟩ <;>
    · cases h : runMain mode s rest with
      | none => simp [runMain, mainStep, h]
      | some r => simp [runMain, mainStep, h]

lemma image_fst_erase_of_unique {S : Finset (Nat × Nat)} {p c : Nat}
    (huniq : ∀ a ∈ S, ∀ b ∈ S, a.1 = b.1 → a = b) (hmem : (p, c) ∈ S) :
    (S.erase (p, c)).image Prod.fst = (S.image Prod.fst).erase p := by
  ext q
  simp only [Finset.mem_image, Finset.mem_erase]
  constructor
  · rintro ⟨a, ⟨hne, ha⟩, rfl⟩
    refine ⟨fun hq => hne ?_, a, ha, rfl⟩
    exact huniq a ha (p, c) hmem (by simpa using hq)
  · rintro ⟨hq, a, ha, rfl⟩
    exact ⟨a, ⟨fun he => hq (by simp [he]), ha⟩, rfl⟩

lemma explicitPeers_eq_image_of_singleConn (trace : List ConnEvent) :
    ∀ S : Finset (Nat × Nat),
      (∀ a ∈ S, ∀ b ∈ S, a.1 = b.1 → a = b) →
      singleConnPerPeer S trace = true →
      explicitPeersAfter (S.image Prod.fst) trace =
        (openConnections S trace).image Prod.fst := by
  induction trace with
  | nil => intro S _ _; rfl
  | cons e rest ih =>
    intro S huniq hwf
    cases e with
    | established p c =>
      simp only [singleConnPerPeer] at hwf
      split at hwf
      · cases hwf
      · rename_i hp
        have himg : (insert (p, c) S).image Prod.fst = insert p (S.image Prod.fst) :=
          Finset.image_insert _ _ _
        have huniq' : ∀ a ∈ insert (p, c) S, ∀ b ∈ insert (p, c) S, a.1 = b.1 → a = b := by
          intro a ha b hb hab
          rcases Finset.mem_insert.1 ha with rfl | ha <;>
            rcases Finset.mem_insert.1 hb with rfl | hb
          · rfl
          · exact absurd (Finset.mem_image_of_mem Prod.fst hb) (by rw [← hab]; exact hp)
          · exact absurd (Finset.mem_image_of_mem Prod.fst ha) (by rw [hab]; exact hp)
          · exact huniq a ha b hb hab
        simpa only [explicitPeersAfter, openConnections, himg] using
          ih (insert (p, c) S) huniq' hwf
    | closed p c =>
      simp only [singleConnPerPeer] at hwf
      split at hwf
      · rename_i hmem
        have huniq' : ∀ a ∈ S.erase (p, c), ∀ b ∈ S.erase (p, c), a.1 = b.1 → a = b :=
          fun a ha b hb hab =>
            huniq a (Finset.mem_of_mem_erase ha) b (Finset.mem_of_mem_erase hb) hab
        have himg := image_fst_erase_of_unique huniq hmem
        simpa only [explicitPeersAfter, openConnections, himg] using
          ih (S.erase (p, c)) huniq' hwf
      · cases hwf

/-- C9 counterexample: with two overlapping connections to the same peer,
closing one of them removes the peer from the explicit-peer set although
a connection to it is still open, so the explicit-peer set differs from
the set of currently connected peers. -/
theorem c9_counterexample :
    (explicitPeersAfter ∅
        [ConnEvent.established 0 0, ConnEvent.established 0 1, ConnEvent.closed 0 0] =
      connectedPeersSpec
        [ConnEvent.established 0 0, ConnEvent.established 0 1, ConnEvent.closed 0 0]) =
      False :=
  eq_false (by decide)

/-- C9 amended: on every connection trace in which each peer holds at most
one connection at a time, the explicit-peer set maintained by the loop
equals the set of currently connected peers. -/
theorem c9_explicit_peers_match_connected (trace : List ConnEvent)
    (hwf : singleConnPerPeer ∅ trace = true) :
    explicitPeersAfter ∅ trace = connectedPeersSpec trace := by
  have := explicitPeers_eq_image_of_singleConn trace ∅ (by simp) hwf
  simpa [connectedPeersSpec] using this

/-- Witness for the amended C9: a well-formed trace — connect to peer 1,
close it, connect to peer 2 — on which the equality holds. -/
theorem c9_witness :
    singleConnPerPeer ∅
        [ConnEvent.established 1 0, ConnEvent.closed 1 0, ConnEvent.established 2 3] =
        true ∧
      explicitPeersAfter ∅
          [ConnEvent.established 1 0, ConnEvent.closed 1 0, ConnEvent.established 2 3] =
        connectedPeersSpec
          [ConnEvent.established 1 0, ConnEvent.closed 1 0, ConnEvent.established 2 3] :=
  ⟨by decide, c9_explicit_peers_match_connected _ (by decide)⟩

/-- C10: `generate_ed25519` is total (the wrong-length error branch of
`ed25519_from_bytes` is unreachable: the input always has 32 bytes, the
seed in byte 0 and zeros elsewhere), deterministic, and injective on the
256 byte seeds. -/
theorem c10_generate_ed25519_total_deterministic_injective :
    (∀ s : Fin 256,
        generate_ed25519 s = .ok ⟨(List.replicate 32 0).set 0 s.val⟩) ∧
      (∀ s t : Fin 256, s = t → generate_ed25519 s = generate_ed25519 t) ∧
      ∀ s t : Fin 256, s ≠ t → generate_ed25519 s ≠ generate_ed25519 t := by
  refine ⟨fun s => ?_, fun s t h => by rw [h], fun s t hst heq => ?_⟩
  · simp [generate_ed25519, ed25519_from_bytes]
  · have hs : generate_ed25519 s = .ok ⟨s.val :: List.replicate 31 0⟩ := rfl
    have ht : generate_ed25519 t = .ok ⟨t.val :: List.replicate 31 0⟩ := rfl
    rw [hs, ht] at heq
    simp only [Except.ok.injEq, Keypair.mk.injEq, List.cons.injEq] at heq
    exact hst (Fin.ext heq.1)

/-- Witness for C10: the seeds 3 and 5 differ and generate distinct
keypairs. -/
theorem c10_witness :
    (3 : Fin 256) ≠ 5 ∧ generate_ed25519 3 ≠ generate_ed25519 5 :=
  ⟨by decide,
    c10_generate_ed25519_total_deterministic_injective.2.2 3 5 (by decide)⟩
